import Mathlib

/-!
Shallow embedding of the friend-lite repository pieces under verification:
the Mycelia memory-provider adapter
(`src/backends/advanced/src/advanced_omi_backend/services/memory/providers/mycelia.py`)
and the conversation utilities
(`src/backends/advanced/src/advanced_omi_backend/utils/conversation_utils.py`).

Modelling conventions:
* Python strings are Lean `String` values; Python string operations
  (`strip`, `split`, slicing, `len`) are defined below over the underlying
  character list so that they compute in the kernel.
* Python floats are modelled as exact rationals (`ℚ`).
* Optional dictionary keys become `Option` fields; `dict.get(k, d)` becomes
  `Option.getD`.
* Remote HTTP calls, identity resolution and the LLM completion capability
  are external effects; each is modelled by passing its outcome as an
  explicit `Except String α` argument (`Except.error` stands for a raised
  exception caught by the surrounding `try`/`except`).
* Python truthiness of strings (`if not s`) is modelled explicitly:
  `None` and `""` are falsy.
-/

namespace FriendLite

/-! ### Python string primitives -/

/-- Python `len(s)`: the number of characters of a string. -/
def pyLen (s : String) : ℕ := s.data.length

/-- Python `s[:n]`: the first `n` characters of a string. -/
def pySlice (s : String) (n : ℕ) : String := ⟨s.data.take n⟩

/-- Drop characters matching `p` from both ends of a character list. -/
def stripWhile (p : Char → Bool) (l : List Char) : List Char :=
  ((l.dropWhile p).reverse.dropWhile p).reverse

/-- Python `s.strip()`: remove leading and trailing whitespace. -/
def pyStrip (s : String) : String :=
  ⟨stripWhile (fun c => c.isWhitespace) s.data⟩

/-- Python `s.strip(c)`: remove leading and trailing occurrences of `c`. -/
def pyStripChar (s : String) (c : Char) : String :=
  ⟨stripWhile (fun x => x == c) s.data⟩

/-- Maximal runs of non-whitespace characters of a character list
(empty runs between consecutive whitespace characters included). -/
def splitRuns (l : List Char) : List (List Char) :=
  l.foldr
    (fun c acc =>
      if c.isWhitespace then [] :: acc
      else
        match acc with
        | [] => [[c]]
        | w :: ws => (c :: w) :: ws)
    []

/-- Python `s.split()` with no separator argument: split on whitespace
runs, discarding empty tokens. -/
def pySplit (s : String) : List String :=
  ((splitRuns s.data).filter (fun w => !w.isEmpty)).map (fun w => ⟨w⟩)

/-- Python truthiness of an optional string: `None` and `""` are falsy. -/
def pyTruthyStr (s : Option String) : Bool :=
  match s with
  | none => false
  | some v => decide (v ≠ "")

/-- The double-quote character, as stripped by `strip('"')` in the source. -/
def dquote : Char := Char.ofNat 34

/-- The single-quote character, as stripped by `strip("'")` in the source. -/
def squote : Char := Char.ofNat 39

/-! ### Speech detection (`conversation_utils.analyze_speech`) -/

/-- A word record from the transcription provider (an entry of
`transcript_data["words"]`): a dictionary whose `confidence`, `start` and
`end` keys may be absent. -/
structure Word where
  text : String := ""
  confidence : Option ℚ := none
  start : Option ℚ := none
  «end» : Option ℚ := none
deriving DecidableEq

/-- The settings dictionary returned by `get_speech_detection_settings()`:
`min_words` (default 5) and `min_confidence` (default 0.5), read afresh on
every call, hence passed as an explicit argument. -/
structure SpeechSettings where
  min_words : ℕ
  min_confidence : ℚ
deriving DecidableEq

/-- Input of `analyze_speech`: the full text plus the word list; an absent
`"words"` key behaves exactly like the empty list (`.get("words", [])`). -/
structure TranscriptData where
  text : String
  words : List Word
deriving DecidableEq

/-- The result dictionary of `analyze_speech`; keys present only in some
branches are `Option` fields defaulting to `none`. -/
structure SpeechResult where
  has_speech : Bool
  reason : String
  word_count : ℕ
  duration : ℚ
  speech_start : Option ℚ := none
  speech_end : Option ℚ := none
  fallback : Option Bool := none
deriving DecidableEq

/-- The list comprehension of `analyze_speech` filtering word records by
the confidence threshold: `w.get("confidence", 0) >= settings["min_confidence"]`. -/
def qualifying_words (settings : SpeechSettings) (words : List Word) : List Word :=
  words.filter (fun w => decide (settings.min_confidence ≤ w.confidence.getD 0))

/-- `analyze_speech` from `conversation_utils.py`.  The word-level path is
attempted when the word list is non-empty; when it reaches no `return`
(possible only when every word is filtered out and the minimum word count
is zero) control falls through to the text-only path, exactly as in the
source. -/
def analyze_speech (settings : SpeechSettings) (transcript_data : TranscriptData) :
    SpeechResult :=
  let words := transcript_data.words
  let word_result : Option SpeechResult :=
    if words.isEmpty then none
    else
      let valid_words := qualifying_words settings words
      if valid_words.length < settings.min_words then
        some { has_speech := false,
               reason := "Not enough valid words (" ++ toString valid_words.length ++
                 " < " ++ toString settings.min_words ++ ")",
               word_count := valid_words.length,
               duration := 0 }
      else if hv : valid_words = [] then none
      else
        let speech_start := (valid_words.head hv).start.getD 0
        let speech_end := (valid_words.getLast hv).«end».getD 0
        let speech_duration := speech_end - speech_start
        some { has_speech := true,
               word_count := valid_words.length,
               speech_start := some speech_start,
               speech_end := some speech_end,
               duration := speech_duration,
               reason := "Valid speech detected (" ++ toString valid_words.length ++
                 " words)" }
  match word_result with
  | some r => r
  | none =>
    let text := pyStrip transcript_data.text
    if text = "" then
      { has_speech := false,
        reason := "No meaningful speech content detected",
        word_count := 0,
        duration := 0 }
    else
      let word_count := (pySplit text).length
      if settings.min_words ≤ word_count then
        { has_speech := true,
          word_count := word_count,
          speech_start := some 0,
          speech_end := some 0,
          duration := 0,
          reason := "Valid speech detected (" ++ toString word_count ++
            " words, no timing data)",
          fallback := some true }
      else
        { has_speech := false,
          reason := "No meaningful speech content detected",
          word_count := 0,
          duration := 0 }

/-! ### Short summary generation (`conversation_utils.generate_short_summary`) -/

/-- A speaker segment: a dictionary with `speaker` and `text` keys (plus
timing offsets, unused by summary generation). -/
structure Segment where
  speaker : String := ""
  text : String := ""
  start : ℚ := 0
  «end» : ℚ := 0
deriving DecidableEq

/-- The segment-formatting loop of `generate_short_summary`: accumulates
the `speaker: utterance` lines and the set of distinct speakers seen. -/
def format_segments (segments : List Segment) : String × List String :=
  segments.foldl
    (fun acc segment =>
      let speaker := segment.speaker
      let segment_text := pyStrip segment.text
      if segment_text = "" then acc
      else if speaker = "" then (acc.1 ++ segment_text ++ "\n", acc.2)
      else (acc.1 ++ speaker ++ ": " ++ segment_text ++ "\n",
            if speaker ∈ acc.2 then acc.2 else acc.2 ++ [speaker]))
    ("", [])

/-- `summary.strip().strip('"').strip("'")` applied to the raw completion. -/
def strip_quotes (s : String) : String :=
  pyStripChar (pyStripChar (pyStrip s) dquote) squote

/-- `generate_short_summary` from `conversation_utils.py`, parametrised by
the outcome of the `async_generate` completion call (`Except.error` stands
for the call raising, which the source catches). -/
def generate_short_summary (completion : Except String String)
    (text : String) (segments : Option (List Segment)) : String :=
  let conversation_text := text
  let fmt : String × Bool :=
    match segments with
    | none => (conversation_text, false)
    | some segs =>
      if segs = [] then (conversation_text, false)
      else
        let fs := format_segments segs
        if pyStrip fs.1 = "" then (conversation_text, false)
        else (fs.1, decide (fs.2.length > 0))
  let conversation_text := fmt.1
  if conversation_text = "" ∨ pyLen (pyStrip conversation_text) < 10 then
    "No content"
  else
    match completion with
    | Except.ok summary =>
      let s := strip_quotes summary
      if s = "" then "No content" else s
    | Except.error _ =>
      if 120 < pyLen conversation_text then pySlice conversation_text 120 ++ "..."
      else if conversation_text = "" then "No content" else conversation_text

/-! ### Mycelia memory adapter (`mycelia.py`) -/

/-- A remote identifier value: either the tagged wrapper `{"$oid": s}` or a
plain scalar string. -/
inductive BsonId where
  | oid (s : String)
  | str (s : String)
deriving DecidableEq

/-- `MyceliaMemoryService._extract_bson_id`: unwrap `{"$oid": ...}`,
otherwise `str(raw_id)` (the identity on a plain string). -/
def _extract_bson_id : BsonId → String
  | BsonId.oid s => s
  | BsonId.str s => s

/-- A remote date value: either the tagged wrapper `{"$date": s}` or a
plain scalar. -/
inductive BsonDate where
  | date (s : String)
  | plain (s : String)
deriving DecidableEq

/-- `MyceliaMemoryService._extract_bson_date`: unwrap `{"$date": ...}`,
otherwise return the value unchanged (`none` models an absent key). -/
def _extract_bson_date : Option BsonDate → Option String
  | some (BsonDate.date s) => some s
  | some (BsonDate.plain s) => some s
  | none => none

/-- A remote Mycelia object as consumed by the adapter; absent keys are
modelled by the defaults used by the corresponding `.get` calls. -/
structure MyceliaObj where
  _id : BsonId := BsonId.str ""
  details : String := ""
  name : String := ""
  aliases : List String := []
  createdAt : Option BsonDate := none
  updatedAt : Option BsonDate := none
deriving DecidableEq

/-- The metadata mapping attached to a `MemoryEntry`. -/
structure MemoryMetadata where
  user_id : String
  name : String
  aliases : List String
  created_at : Option String
  updated_at : Option String
deriving DecidableEq

/-- The normalized record returned to callers (`MemoryEntry` from
`services/memory/base.py`, as populated by this adapter). -/
structure MemoryEntry where
  id : String
  content : String
  metadata : MemoryMetadata
  created_at : Option String
  score : Option ℚ := none
deriving DecidableEq

/-- `MyceliaMemoryService._mycelia_object_to_memory_entry`. -/
def _mycelia_object_to_memory_entry (obj : MyceliaObj) (user_id : String) :
    MemoryEntry :=
  { id := _extract_bson_id obj._id,
    content := obj.details,
    metadata :=
      { user_id := user_id,
        name := obj.name,
        aliases := obj.aliases,
        created_at := _extract_bson_date obj.createdAt,
        updated_at := _extract_bson_date obj.updatedAt },
    created_at := _extract_bson_date obj.createdAt }

/-- The entry appended by the `search_memories` loop: the converted object
with its positional decay score written into the `score` field. -/
def scored_entry (obj : MyceliaObj) (user_id : String) (score : ℚ) : MemoryEntry :=
  { _mycelia_object_to_memory_entry obj user_id with score := some score }

/-- The `for i, obj in enumerate(result)` loop of `search_memories`:
compute `score = 1.0 - i * 0.1`, skip the object (`continue`) when the
score falls below the threshold, otherwise append the scored entry. -/
def search_loop (score_threshold : ℚ) (user_id : String) :
    ℕ → List MyceliaObj → List MemoryEntry
  | _, [] => []
  | i, obj :: rest =>
    let score : ℚ := 1 - (i : ℚ) * 0.1
    if score < score_threshold then search_loop score_threshold user_id (i + 1) rest
    else scored_entry obj user_id score :: search_loop score_threshold user_id (i + 1) rest

/-- `MyceliaMemoryService.search_memories`, parametrised by the list of
objects the remote `list` call returned (`remote`); `query` and `limit`
are forwarded to the remote call and do not affect the post-processing. -/
def search_memories (remote : List MyceliaObj) (query user_id : String)
    (limit : ℕ) (score_threshold : ℚ) : List MemoryEntry :=
  search_loop score_threshold user_id 0 remote

/-- The remote response of the `create` action, as consumed by
`add_memory` (`result.get("insertedId")`). -/
structure CreateResponse where
  insertedId : Option String := none
deriving DecidableEq

/-- The `memory_preview` computed by `add_memory`:
`transcript[:50] + ("..." if len(transcript) > 50 else "")`. -/
def memory_preview (transcript : String) : String :=
  pySlice transcript 50 ++ (if 50 < pyLen transcript then "..." else "")

/-- The object payload `add_memory` sends to the remote `create` action. -/
structure MyceliaObjectData where
  name : String
  details : String
  aliases : List String
  isPerson : Bool := false
  isPromise : Bool := false
  isEvent : Bool := false
  isRelationship : Bool := false
deriving DecidableEq

/-- The `object_data` dictionary built by `add_memory`. -/
def add_memory_object_data (transcript client_id source_id : String) :
    MyceliaObjectData :=
  { name := "Memory: " ++ memory_preview transcript,
    details := transcript,
    aliases := [source_id, client_id] }

/-- `MyceliaMemoryService.add_memory`, parametrised by the outcome of the
JWT/identity resolution (`jwt`) and of the remote `create` call
(`create_response`).  Any raised exception is caught by the surrounding
`try`/`except` and mapped to `(False, [])`; a returned `insertedId` is
checked for Python truthiness (`if memory_id:`). -/
def add_memory (jwt : Except String String)
    (create_response : Except String CreateResponse)
    (transcript client_id source_id user_id user_email : String) :
    Bool × List String :=
  match jwt with
  | Except.error _ => (false, [])
  | Except.ok _jwt_token =>
    match create_response with
    | Except.error _ => (false, [])
    | Except.ok result =>
      match result.insertedId with
      | some memory_id =>
        if memory_id ≠ "" then (true, [memory_id]) else (false, [])
      | none => (false, [])

/-- The remote response of the `delete` action
(`result.get("deletedCount", 0)`). -/
structure DeleteResponse where
  deletedCount : ℕ := 0
deriving DecidableEq

/-- `MyceliaMemoryService.delete_memory`, parametrised like `add_memory`.
The second component of the result records the remote resource requests
issued during the call.  The identity guard (`if not user_id`) returns
before the JWT lookup and before any remote request. -/
def delete_memory (jwt : Except String String)
    (delete_response : Except String DeleteResponse)
    (memory_id : String) (user_id : Option String) (user_email : Option String) :
    Bool × List String :=
  if pyTruthyStr user_id = false then (false, [])
  else
    match jwt with
    | Except.error _ => (false, [])
    | Except.ok _jwt_token =>
      match delete_response with
      | Except.error _ => (false, ["delete " ++ memory_id])
      | Except.ok result =>
        (decide (0 < result.deletedCount), ["delete " ++ memory_id])

/-! ### Concrete fixtures used by counterexamples and witnesses -/

/-- The end-to-end scenario transcript of the spec (the apostrophe of the
fifth token built explicitly). -/
def c6_text : String :=
  "um yeah so anyway let" ++ String.mk [squote] ++ "s meet tomorrow at noon"

/-- A 121-character source text for the short-summary fallback. -/
def c2_long_text : String := String.mk (List.replicate 121 'a')

/-- Two confidence-qualifying, time-ordered words (starts 0 and 3, ends 2
and 5). -/
def c4_words : List Word :=
  [⟨"a", some 2, some 0, some 2⟩, ⟨"b", some 2, some 3, some 5⟩]

/-- A single qualifying word whose end offset (1) precedes its start
offset (5). -/
def c4_bad_words : List Word := [⟨"x", some 2, some 5, some 1⟩]

/-! ### Helper lemmas -/

lemma length_dropWhile_le {α : Type} (p : α → Bool) (l : List α) :
    (l.dropWhile p).length ≤ l.length := by
  induction l with
  | nil => simp
  | cons a l ih =>
    rw [List.dropWhile_cons]
    split
    · exact le_trans ih (Nat.le_succ _)
    · exact le_refl _

lemma stripWhile_length_le (p : Char → Bool) (l : List Char) :
    (stripWhile p l).length ≤ l.length := by
  have h1 := length_dropWhile_le p l
  have h2 := length_dropWhile_le p (l.dropWhile p).reverse
  simp only [stripWhile, List.length_reverse]
  simp only [List.length_reverse] at h2
  omega

lemma pyStrip_pyLen_le (s : String) : pyLen (pyStrip s) ≤ pyLen s :=
  stripWhile_length_le _ _

lemma pyLen_append (a b : String) : pyLen (a ++ b) = pyLen a + pyLen b := by
  cases a with
  | mk d1 =>
    cases b with
    | mk d2 =>
      show (d1 ++ d2).length = d1.length + d2.length
      exact List.length_append d1 d2

lemma pySlice_pyLen_le (s : String) (n : ℕ) : pyLen (pySlice s n) ≤ n := by
  show (s.data.take n).length ≤ n
  simp [List.length_take]

lemma head_start_le_getLast_start (l : List Word) (hl : l ≠ [])
    (hpair : l.Pairwise (fun a b => a.start.getD 0 ≤ b.start.getD 0)) :
    (l.head hl).start.getD 0 ≤ (l.getLast hl).start.getD 0 := by
  cases l with
  | nil => exact absurd rfl hl
  | cons q qs =>
    obtain ⟨hrel, -⟩ := List.pairwise_cons.mp hpair
    have hh : (q :: qs).head hl = q := rfl
    rcases List.mem_cons.mp (List.getLast_mem hl) with heq | hmem
    · rw [hh, heq]
    · rw [hh]
      exact hrel _ hmem

lemma analyze_speech_word_path_low (s : SpeechSettings) (t : TranscriptData)
    (hw : t.words ≠ [])
    (hq : (qualifying_words s t.words).length < s.min_words) :
    analyze_speech s t =
      { has_speech := false,
        reason := "Not enough valid words (" ++
          toString (qualifying_words s t.words).length ++ " < " ++
          toString s.min_words ++ ")",
        word_count := (qualifying_words s t.words).length,
        duration := 0 } := by
  have hne : t.words.isEmpty = false := by
    cases htw : t.words with
    | nil => exact absurd htw hw
    | cons a l => rfl
  simp only [analyze_speech, hne, Bool.false_eq_true, if_false, hq, if_true]

lemma analyze_speech_word_path_speech (s : SpeechSettings) (t : TranscriptData)
    (hw : t.words ≠ [])
    (hq : ¬ (qualifying_words s t.words).length < s.min_words)
    (hv : qualifying_words s t.words ≠ []) :
    analyze_speech s t =
      { has_speech := true,
        word_count := (qualifying_words s t.words).length,
        speech_start := some (((qualifying_words s t.words).head hv).start.getD 0),
        speech_end := some (((qualifying_words s t.words).getLast hv).«end».getD 0),
        duration := ((qualifying_words s t.words).getLast hv).«end».getD 0 -
          ((qualifying_words s t.words).head hv).start.getD 0,
        reason := "Valid speech detected (" ++
          toString (qualifying_words s t.words).length ++ " words)" } := by
  have hne : t.words.isEmpty = false := by
    cases htw : t.words with
    | nil => exact absurd htw hw
    | cons a l => rfl
  simp only [analyze_speech, hne, Bool.false_eq_true, if_false, hq, dif_neg hv]

lemma search_loop_skip (score_threshold : ℚ) (user_id : String) :
    ∀ (l : List MyceliaObj) (i : ℕ),
      (1 : ℚ) - (i : ℚ) * 0.1 < score_threshold →
      search_loop score_threshold user_id i l = [] := by
  intro l
  induction l with
  | nil => intro i _; rfl
  | cons obj rest ih =>
    intro i h
    show (if (1 : ℚ) - (i : ℚ) * 0.1 < score_threshold
        then search_loop score_threshold user_id (i + 1) rest
        else scored_entry obj user_id ((1 : ℚ) - (i : ℚ) * 0.1) ::
          search_loop score_threshold user_id (i + 1) rest) = []
    rw [if_pos h]
    apply ih
    push_cast
    linarith

lemma search_loop_cons (score_threshold : ℚ) (user_id : String)
    (obj : MyceliaObj) (rest : List MyceliaObj) (i : ℕ)
    (hs : ¬ (1 : ℚ) - (i : ℚ) * 0.1 < score_threshold) :
    search_loop score_threshold user_id i (obj :: rest) =
      scored_entry obj user_id ((1 : ℚ) - (i : ℚ) * 0.1) ::
        search_loop score_threshold user_id (i + 1) rest := by
  show (if (1 : ℚ) - (i : ℚ) * 0.1 < score_threshold
      then search_loop score_threshold user_id (i + 1) rest
      else scored_entry obj user_id ((1 : ℚ) - (i : ℚ) * 0.1) ::
        search_loop score_threshold user_id (i + 1) rest) = _
  rw [if_neg hs]

lemma score_antitone (i j : ℕ) (hij : i ≤ j) :
    (1 : ℚ) - (j : ℚ) * 0.1 ≤ 1 - (i : ℚ) * 0.1 := by
  have : ((i : ℚ)) ≤ (j : ℚ) := by exact_mod_cast hij
  nlinarith

set_option maxHeartbeats 2000000 in
lemma search_loop_get? (score_threshold : ℚ) (user_id : String) :
    ∀ (l : List MyceliaObj) (i j : ℕ),
      (search_loop score_threshold user_id i l).get? j =
        if h : j < l.length ∧ score_threshold ≤ 1 - ((i + j : ℕ) : ℚ) * 0.1 then
          some (scored_entry (l.get ⟨j, h.1⟩) user_id (1 - ((i + j : ℕ) : ℚ) * 0.1))
        else none := by
  intro l
  induction l with
  | nil =>
    intro i j
    rw [dif_neg]
    · rfl
    · rintro ⟨hj, -⟩
      simp at hj
  | cons obj rest ih =>
    intro i j
    by_cases hs : (1 : ℚ) - (i : ℚ) * 0.1 < score_threshold
    · rw [search_loop_skip score_threshold user_id (obj :: rest) i hs]
      rw [dif_neg]
      · rfl
      · rintro ⟨-, hsc⟩
        have hmono := score_antitone i (i + j) (Nat.le_add_right i j)
        linarith
    · rw [search_loop_cons score_threshold user_id obj rest i hs]
      cases j with
      | zero =>
        rw [List.get?_cons_zero,
            dif_pos ⟨Nat.succ_pos rest.length, by simpa using not_lt.mp hs⟩]
        simp
      | succ j' =>
        rw [List.get?_cons_succ, ih (i + 1) j']
        have harith : ((i + 1 + j' : ℕ) : ℚ) = ((i + (j' + 1) : ℕ) : ℚ) := by
          push_cast
          ring
        by_cases hc : j' < rest.length ∧
            score_threshold ≤ 1 - ((i + 1 + j' : ℕ) : ℚ) * 0.1
        · rw [dif_pos hc,
              dif_pos ⟨Nat.succ_lt_succ hc.1, by rw [← harith]; exact hc.2⟩]
          exact congrArg
            (fun c : ℚ => some (scored_entry (rest.get ⟨j', hc.1⟩) user_id (1 - c * 0.1)))
            harith
        · rw [dif_neg hc, dif_neg]
          rintro ⟨hj, hsc⟩
          exact hc ⟨Nat.lt_of_succ_lt_succ hj, by rw [harith]; exact hsc⟩

lemma search_loop_threshold_zero_length (user_id : String) :
    ∀ (l : List MyceliaObj) (i : ℕ),
      (search_loop 0 user_id i l).length ≤ 11 - i := by
  intro l
  induction l with
  | nil => intro i; simp [search_loop]
  | cons obj rest ih =>
    intro i
    by_cases hs : (1 : ℚ) - (i : ℚ) * 0.1 < 0
    · show (if (1 : ℚ) - (i : ℚ) * 0.1 < 0
          then search_loop 0 user_id (i + 1) rest
          else scored_entry obj user_id ((1 : ℚ) - (i : ℚ) * 0.1) ::
            search_loop 0 user_id (i + 1) rest).length ≤ 11 - i
      rw [if_pos hs]
      have := ih (i + 1)
      omega
    · have hi : i ≤ 10 := by
        have h0 : (0 : ℚ) ≤ 1 - (i : ℚ) * 0.1 := not_lt.mp hs
        have h1 : (i : ℚ) ≤ 10 := by nlinarith
        exact_mod_cast h1
      rw [search_loop_cons 0 user_id obj rest i hs]
      have := ih (i + 1)
      simp only [List.length_cons]
      omega

/-! ### Claim theorems -/

/-- C9: identifier unwrapping is uniform and idempotent: the tagged
wrapper with key `$oid` and value `"abc123"` unwraps to `"abc123"`, the
plain scalar `"abc123"` is returned unchanged, and applying the unwrap to
the (re-wrapped) output of the unwrap equals a single application, for
every input of either form. -/
theorem extract_bson_id_uniform_idempotent :
    _extract_bson_id (BsonId.oid "abc123") = "abc123" ∧
    _extract_bson_id (BsonId.str "abc123") = "abc123" ∧
    ∀ v : BsonId,
      _extract_bson_id (BsonId.str (_extract_bson_id v)) = _extract_bson_id v := by
  refine ⟨rfl, rfl, ?_⟩
  intro v
  cases v <;> rfl

/-- C8: for every memory id, `delete_memory` called without a user
identity (`user_id = none`) returns `False` without issuing any remote
request (the request log is empty), independently of the identity
resolution and remote outcomes (so neither is ever consulted). -/
theorem delete_memory_no_identity (jwt : Except String String)
    (delete_response : Except String DeleteResponse)
    (memory_id : String) (user_email : Option String) :
    delete_memory jwt delete_response memory_id none user_email = (false, []) := rfl

/-- C7 counterexample: a remote create response containing an
`insertedId` field whose value is the empty string makes `add_memory`
return `(False, [])`, not `(True, [""])` as the claim states for every
contained `insertedId` value. -/
theorem add_memory_empty_inserted_id_counterexample :
    (CreateResponse.mk (some "")).insertedId = some "" ∧
    add_memory (Except.ok "token") (Except.ok (CreateResponse.mk (some "")))
      "t" "client" "source" "user" "mail" = (false, []) ∧
    add_memory (Except.ok "token") (Except.ok (CreateResponse.mk (some "")))
      "t" "client" "source" "user" "mail" ≠ (true, [""]) := by
  refine ⟨rfl, rfl, ?_⟩
  decide

/-- C7 (amended): `add_memory` returns `(True, [id])` when the remote
create response contains a non-empty `insertedId` value `id`, returns
`(False, [])` when the response lacks an `insertedId` or carries the
empty (falsy) one, and on any failure (identity-resolution error or
create-call error) returns `(False, [])` rather than propagating. -/
theorem add_memory_result_spec (tok err : String) (resp : CreateResponse)
    (transcript client_id source_id user_id user_email : String) :
    (∀ memory_id, resp.insertedId = some memory_id → memory_id ≠ "" →
      add_memory (Except.ok tok) (Except.ok resp)
        transcript client_id source_id user_id user_email = (true, [memory_id])) ∧
    (resp.insertedId = none ∨ resp.insertedId = some "" →
      add_memory (Except.ok tok) (Except.ok resp)
        transcript client_id source_id user_id user_email = (false, [])) ∧
    (∀ create_response, add_memory (Except.error err) create_response
        transcript client_id source_id user_id user_email = (false, [])) ∧
    (add_memory (Except.ok tok) (Except.error err)
        transcript client_id source_id user_id user_email = (false, [])) := by
  refine ⟨?_, ?_, fun _ => rfl, rfl⟩
  · intro memory_id hmid hne
    cases resp with
    | mk ins =>
      cases hmid
      simp only [add_memory, if_pos hne]
  · intro h
    cases resp with
    | mk ins =>
      rcases h with h | h <;> cases h <;> simp [add_memory]

/-- C7 witness: the spec scenario, a create response
`{"insertedId": "m1"}`, yields `(True, ["m1"])`. -/
theorem add_memory_result_witness :
    add_memory (Except.ok "token") (Except.ok (CreateResponse.mk (some "m1")))
      "t" "client" "source" "user" "mail" = (true, ["m1"]) :=
  (add_memory_result_spec "token" "err" (CreateResponse.mk (some "m1"))
    "t" "client" "source" "user" "mail").1 "m1" rfl (by decide)

/-- C6 counterexample: the scenario transcript splits into 9 whitespace
tokens, so the result has `word_count = 9`, refuting the claimed
conjunction with `word_count = 8` (speech and fallback flags do hold). -/
theorem analyze_speech_scenario_counterexample :
    (analyze_speech ⟨5, 1⟩ ⟨c6_text, []⟩).word_count = 9 ∧
    ¬((analyze_speech ⟨5, 1⟩ ⟨c6_text, []⟩).has_speech = true ∧
      (analyze_speech ⟨5, 1⟩ ⟨c6_text, []⟩).word_count = 8 ∧
      (analyze_speech ⟨5, 1⟩ ⟨c6_text, []⟩).fallback = some true) := by
  refine ⟨rfl, ?_⟩
  decide

/-- C6 (amended): `analyze_speech` on the transcript
`"um yeah so anyway let's meet tomorrow at noon"` with no word-level data
and minimum word count 5 returns `has_speech = True`, `word_count = 9`
(the text has nine whitespace-separated tokens) and `fallback = True`,
for every configured confidence threshold. -/
theorem analyze_speech_scenario (min_confidence : ℚ) :
    (analyze_speech ⟨5, min_confidence⟩ ⟨c6_text, []⟩).has_speech = true ∧
    (analyze_speech ⟨5, min_confidence⟩ ⟨c6_text, []⟩).word_count = 9 ∧
    (analyze_speech ⟨5, min_confidence⟩ ⟨c6_text, []⟩).fallback = some true :=
  ⟨rfl, rfl, rfl⟩

/-- C3 counterexample: with an empty word list, five tokens of text and
minimum word count 5, the qualifying-word count (0) is below the minimum,
yet `analyze_speech` reports speech (via the text fallback) with
`word_count = 5`, refuting the claim for transcripts without word-level
data. -/
theorem analyze_speech_below_min_counterexample :
    (qualifying_words ⟨5, 1⟩ ((⟨"a b c d e", []⟩ : TranscriptData).words)).length = 0 ∧
    (analyze_speech ⟨5, 1⟩ ⟨"a b c d e", []⟩).has_speech = true ∧
    (analyze_speech ⟨5, 1⟩ ⟨"a b c d e", []⟩).word_count = 5 :=
  ⟨rfl, rfl, rfl⟩

/-- C3 (amended): for every confidence threshold, every minimum word
count and every transcript whose word list is non-empty, if the number of
qualifying words is strictly below the minimum, `analyze_speech` reports
`has_speech = False` with `word_count` equal to the qualifying-word count
and `duration = 0`. -/
theorem analyze_speech_below_min_spec (s : SpeechSettings) (t : TranscriptData)
    (hw : t.words ≠ [])
    (hq : (qualifying_words s t.words).length < s.min_words) :
    (analyze_speech s t).has_speech = false ∧
    (analyze_speech s t).word_count = (qualifying_words s t.words).length ∧
    (analyze_speech s t).duration = 0 := by
  rw [analyze_speech_word_path_low s t hw hq]
  exact ⟨rfl, rfl, rfl⟩

/-- C3 witness: one qualifying word against a minimum of five yields
no-speech with `word_count = 1` and zero duration. -/
theorem analyze_speech_below_min_witness :
    (analyze_speech ⟨5, 1⟩ ⟨"", [⟨"hi", some 2, some 0, some 1⟩]⟩).has_speech = false ∧
    (analyze_speech ⟨5, 1⟩ ⟨"", [⟨"hi", some 2, some 0, some 1⟩]⟩).word_count = 1 ∧
    (analyze_speech ⟨5, 1⟩ ⟨"", [⟨"hi", some 2, some 0, some 1⟩]⟩).duration = 0 := by
  obtain ⟨h1, h2, h3⟩ := analyze_speech_below_min_spec ⟨5, 1⟩
    ⟨"", [⟨"hi", some 2, some 0, some 1⟩]⟩ (by decide) (by decide)
  refine ⟨h1, ?_, h3⟩
  rw [h2]
  decide

/-- C4 counterexample: a single qualifying word with start offset 5 and
end offset 1 makes `analyze_speech` detect speech with a negative
duration, refuting the claimed `duration ≥ 0` for arbitrary word lists. -/
theorem analyze_speech_negative_duration_counterexample :
    (analyze_speech ⟨1, 1⟩ ⟨"", c4_bad_words⟩).has_speech = true ∧
    (analyze_speech ⟨1, 1⟩ ⟨"", c4_bad_words⟩).duration < 0 := by
  have hd : (analyze_speech ⟨1, 1⟩ ⟨"", c4_bad_words⟩).duration = (1 : ℚ) - 5 := rfl
  exact ⟨rfl, by rw [hd]; norm_num⟩

/-- C4 (amended): whenever the word-level path detects speech, the
reported duration equals the last qualifying word's end offset minus the
first qualifying word's start offset; and the duration is non-negative
whenever, additionally, the word list is time-ordered (non-decreasing
start offsets, each word's end not before its start). -/
theorem analyze_speech_duration_spec (s : SpeechSettings) (t : TranscriptData)
    (hw : t.words ≠ [])
    (hq : ¬ (qualifying_words s t.words).length < s.min_words)
    (hv : qualifying_words s t.words ≠ []) :
    (analyze_speech s t).has_speech = true ∧
    (analyze_speech s t).duration =
      ((qualifying_words s t.words).getLast hv).«end».getD 0 -
      ((qualifying_words s t.words).head hv).start.getD 0 ∧
    ((t.words.Pairwise fun a b => a.start.getD 0 ≤ b.start.getD 0) →
      (∀ w ∈ t.words, w.start.getD 0 ≤ w.«end».getD 0) →
      0 ≤ (analyze_speech s t).duration) := by
  rw [analyze_speech_word_path_speech s t hw hq hv]
  refine ⟨rfl, rfl, ?_⟩
  intro hsorted hwf
  have hpair : (qualifying_words s t.words).Pairwise
      (fun a b => a.start.getD 0 ≤ b.start.getD 0) :=
    List.Pairwise.filter _ hsorted
  have hlast_mem : (qualifying_words s t.words).getLast hv ∈ qualifying_words s t.words :=
    List.getLast_mem hv
  have hlast_words : (qualifying_words s t.words).getLast hv ∈ t.words :=
    List.mem_of_mem_filter hlast_mem
  have hstart_le := head_start_le_getLast_start _ hv hpair
  have hend := hwf _ hlast_words
  simp only []
  linarith

/-- C4 witness: two time-ordered qualifying words (offsets 0–2 and 3–5)
yield speech with non-negative duration. -/
theorem analyze_speech_duration_witness :
    (analyze_speech ⟨1, 1⟩ ⟨"", c4_words⟩).has_speech = true ∧
    0 ≤ (analyze_speech ⟨1, 1⟩ ⟨"", c4_words⟩).duration := by
  obtain ⟨h1, -, h3⟩ := analyze_speech_duration_spec ⟨1, 1⟩ ⟨"", c4_words⟩
    (by decide) (by decide) (by decide)
  exact ⟨h1, h3 (by decide) (by decide)⟩

/-- C5 counterexample: with a non-empty word list in which no word meets
the confidence threshold and a configured minimum word count of 0, the
word-level path falls through and the text fallback reports
`fallback = True`, refuting the claim for that configured threshold
pair. -/
theorem analyze_speech_fallback_counterexample :
    ((⟨"hello", [⟨"x", some 0, some 0, some 0⟩]⟩ : TranscriptData).words ≠ []) ∧
    (analyze_speech ⟨0, 1⟩ ⟨"hello", [⟨"x", some 0, some 0, some 0⟩]⟩).fallback
      = some true := by
  exact ⟨by decide, rfl⟩

/-- C5 (amended): whenever the configured minimum word count is at least
1, `analyze_speech` on an input with a present, non-empty word list never
returns `fallback = True`; the fallback flag is reachable only with an
empty/absent word list (or a zero minimum word count). -/
theorem analyze_speech_no_fallback_spec (s : SpeechSettings) (t : TranscriptData)
    (hmin : 1 ≤ s.min_words) (hw : t.words ≠ []) :
    (analyze_speech s t).fallback ≠ some true := by
  by_cases hq : (qualifying_words s t.words).length < s.min_words
  · rw [analyze_speech_word_path_low s t hw hq]
    simp
  · have hv : qualifying_words s t.words ≠ [] := by
      intro h
      rw [h] at hq
      simp only [List.length_nil, not_lt, Nat.le_zero] at hq
      omega
    rw [analyze_speech_word_path_speech s t hw hq hv]
    simp

/-- C5 witness: a non-empty word list with the default minimum word count
5 yields a result without the fallback flag. -/
theorem analyze_speech_no_fallback_witness :
    (analyze_speech ⟨5, 1⟩ ⟨"a b c d e f", [⟨"hi", some 2, some 0, some 1⟩]⟩).fallback
      ≠ some true :=
  analyze_speech_no_fallback_spec ⟨5, 1⟩
    ⟨"a b c d e f", [⟨"hi", some 2, some 0, some 1⟩]⟩ (by decide) (by decide)

set_option maxRecDepth 8000 in
/-- C2 counterexample: on a 121-character source text with the completion
call failing, the fallback of `generate_short_summary` returns the first
120 characters plus a three-character ellipsis: 123 characters after
trimming, exceeding the claimed 120-character bound. -/
theorem generate_short_summary_len_counterexample :
    pyLen (pyStrip (generate_short_summary (Except.error "boom") c2_long_text none))
      = 123 ∧
    120 < pyLen (pyStrip (generate_short_summary (Except.error "boom")
      c2_long_text none)) := by
  constructor <;> decide

/-- C2 (amended): for every input text and segment list, when the
completion call fails, the string returned by `generate_short_summary`
is at most 123 characters long after trimming (at most 120 source
characters plus a three-character ellipsis); the code enforces no length
bound when the completion succeeds. -/
theorem generate_short_summary_fallback_len (err text : String)
    (segments : Option (List Segment)) :
    pyLen (pyStrip (generate_short_summary (Except.error err) text segments)) ≤ 123 := by
  have key : ∀ ct : String,
      pyLen (if 120 < pyLen ct then pySlice ct 120 ++ "..."
             else if ct = "" then "No content" else ct) ≤ 123 := by
    intro ct
    split
    · rw [pyLen_append]
      have h1 := pySlice_pyLen_le ct 120
      have h2 : pyLen "..." = 3 := rfl
      omega
    · next hct =>
      split
      · decide
      · omega
  refine le_trans (pyStrip_pyLen_le _) ?_
  simp only [generate_short_summary]
  split
  · decide
  · exact key _

/-- C1: for every remote response list and every score threshold, the
`j`-th returned entry of `search_memories` is the `j`-th remote object
scored `1.0 - j * 0.1` (so the first remote result scores 1.0 and each
rank decays by 0.1); positions whose decayed score falls below the
threshold are excluded; scores meet the threshold and are ordered
non-increasingly; and the first returned entry scores 1.0 whenever the
result is non-empty and the threshold is at most 1.0. -/
theorem search_memories_rank_decay_spec (remote : List MyceliaObj)
    (query user_id : String) (limit : ℕ) (score_threshold : ℚ) :
    (∀ j e,
      (search_memories remote query user_id limit score_threshold).get? j = some e →
      ∃ h : j < remote.length,
        e = scored_entry (remote.get ⟨j, h⟩) user_id (1 - (j : ℚ) * 0.1) ∧
        e.score = some (1 - (j : ℚ) * 0.1) ∧
        score_threshold ≤ 1 - (j : ℚ) * 0.1) ∧
    (∀ j : ℕ, (1 : ℚ) - (j : ℚ) * 0.1 < score_threshold →
      (search_memories remote query user_id limit score_threshold).get? j = none) ∧
    (∀ j e e2,
      (search_memories remote query user_id limit score_threshold).get? j = some e →
      (search_memories remote query user_id limit score_threshold).get? (j + 1) = some e2 →
      e2.score.getD 0 ≤ e.score.getD 0) ∧
    (score_threshold ≤ 1 → ∀ e,
      (search_memories remote query user_id limit score_threshold).head? = some e →
      e.score = some 1) := by
  have hm : ∀ j, (search_memories remote query user_id limit score_threshold).get? j =
      if h : j < remote.length ∧ score_threshold ≤ 1 - (j : ℚ) * 0.1 then
        some (scored_entry (remote.get ⟨j, h.1⟩) user_id (1 - (j : ℚ) * 0.1))
      else none := by
    intro j
    have h := search_loop_get? score_threshold user_id remote 0 j
    simpa using h
  have hget : ∀ j e,
      (search_memories remote query user_id limit score_threshold).get? j = some e →
      ∃ h : j < remote.length,
        e = scored_entry (remote.get ⟨j, h⟩) user_id (1 - (j : ℚ) * 0.1) ∧
        e.score = some (1 - (j : ℚ) * 0.1) ∧
        score_threshold ≤ 1 - (j : ℚ) * 0.1 := by
    intro j e he
    rw [hm j] at he
    by_cases h : j < remote.length ∧ score_threshold ≤ 1 - (j : ℚ) * 0.1
    · rw [dif_pos h] at he
      cases Option.some.inj he
      exact ⟨h.1, rfl, rfl, h.2⟩
    · rw [dif_neg h] at he
      exact absurd he (by simp)
  refine ⟨hget, ?_, ?_, ?_⟩
  · intro j hlt
    rw [hm j]
    rw [dif_neg]
    rintro ⟨-, hsc⟩
    linarith
  · intro j e e2 he he2
    obtain ⟨-, -, hs1, -⟩ := hget j e he
    obtain ⟨-, -, hs2, -⟩ := hget (j + 1) e2 he2
    rw [hs1, hs2]
    simp only [Option.getD_some]
    exact_mod_cast score_antitone j (j + 1) (Nat.le_succ j)
  · intro hθ e he0
    cases hres : search_memories remote query user_id limit score_threshold with
    | nil =>
      rw [hres] at he0
      exact absurd he0 (by simp)
    | cons a t =>
      have h0 : (search_memories remote query user_id limit score_threshold).get? 0
          = some e := by
        rw [hres]
        rw [hres] at he0
        simpa using he0
      obtain ⟨-, -, hsc, -⟩ := hget 0 e h0
      rw [hsc]
      norm_num

/-- C1 witness: a single remote object with threshold 1/2 produces a
first entry scoring exactly 1. -/
theorem search_memories_rank_decay_witness :
    (search_memories [{}] "q" "u" 10 (1/2)).head?.map MemoryEntry.score
      = some (some 1) := by
  have h4 := (search_memories_rank_decay_spec [{}] "q" "u" 10 (1/2)).2.2.2
    (by norm_num)
  have hh : (search_memories [{}] "q" "u" 10 (1/2)).head?
      = some (scored_entry {} "u" (1 - (0 : ℚ) * 0.1)) := by
    show (search_loop (1/2) "u" 0 [{}]).head? = _
    rw [search_loop_cons (1/2) "u" {} [] 0 (by norm_num)]
    rfl
  rw [hh]
  have hsc := h4 _ hh
  show some (scored_entry {} "u" (1 - (0 : ℚ) * 0.1)).score = some (some 1)
  rw [hsc]

/-- C10: with the default score threshold 0.0, `search_memories` returns
at most 11 entries regardless of the `limit` argument and the size of the
remote response, because the rank-decay score of every remote result past
rank 10 is negative and skipped by the threshold test. -/
theorem search_memories_default_threshold_cap (remote : List MyceliaObj)
    (query user_id : String) (limit : ℕ) :
    (search_memories remote query user_id limit 0).length ≤ 11 := by
  have h := search_loop_threshold_zero_length user_id remote 0
  simpa using h

end FriendLite
